import Mathlib

/-!
Verification of the scriggo template engine sources against their
natural-language specification.

Each section embeds one component of the Go sources as executable Lean
definitions and proves (or refutes) the specified properties about them.
Go strings are modelled as Lean `String`/`List Char`; the byte-level
comparisons performed by the Go code on ASCII characters coincide with the
character-level comparisons used here, because in UTF-8 every byte of a
multi-byte character is at least 0x80 and therefore never equal to an
ASCII character such as '.', ' ' or '/'.
-/

set_option maxRecDepth 4000

/-- Decidable equality for `Except`, used to evaluate the embedded
fallible functions on concrete inputs. -/
instance {e a : Type} [DecidableEq e] [DecidableEq a] : DecidableEq (Except e a) := fun x y =>
  match x, y with
  | .ok v, .ok w =>
      if h : v = w then .isTrue (congrArg Except.ok h)
      else .isFalse fun hc => h (Except.ok.inj hc)
  | .error v, .error w =>
      if h : v = w then .isTrue (congrArg Except.error h)
      else .isFalse fun hc => h (Except.error.inj hc)
  | .ok _, .error _ => .isFalse fun hc => Except.noConfusion hc
  | .error _, .ok _ => .isFalse fun hc => Except.noConfusion hc

namespace PathV

/-! ### Path validation (ast package, `IsPath` / `isFileName` / `isDirName`)

Embeds the path validation used for extend, include and show paths.
-/

/-- A character forbidden in a file or directory name on Windows:
the listed punctuation, DEL, and control characters up to 0x1f. -/
def isForbiddenChar (c : Char) : Bool :=
  c == '"' || c == '*' || c == '/' || c == ':' || c == '<' || c == '>' ||
  c == '?' || c == '\\' || c == '|' || c == '\x7f' || c ≤ '\x1f'

/-- The reserved Windows device names checked by `isWindowsReservedName`. -/
def reservedNames : List String :=
  ["con", "prn", "aux", "nul",
   "com0", "com1", "com2", "com3", "com4", "com5", "com6", "com7", "com8",
   "com9", "lpt0", "lpt1", "lpt2", "lpt3", "lpt4", "lpt5", "lpt6", "lpt7",
   "lpt8", "lpt9"]

/-- The 4-byte reserved prefixes (`name[0:4]` comparisons in the source). -/
def reservedPrefixes4 : List String := ["con.", "prn.", "aux.", "nul."]

/-- The 5-byte reserved prefixes (`name[0:5]` comparisons in the source). -/
def reservedPrefixes5 : List String :=
  ["com0.", "com1.", "com2.", "com3.", "com4.", "com5.", "com6.",
   "com7.", "com8.", "com9.", "lpt0.", "lpt1.", "lpt2.", "lpt3.",
   "lpt4.", "lpt5.", "lpt6.", "lpt7.", "lpt8.", "lpt9."]

/-- `isWindowsReservedName` from the ast package: a name containing a
forbidden character, equal to a reserved device name, or starting with a
reserved device name followed by a dot, is reserved on Windows. -/
def isWindowsReservedName (name : String) : Bool :=
  name.toList.any isForbiddenChar ||
  reservedNames.contains name ||
  reservedPrefixes4.any (fun p => name.startsWith p) ||
  reservedPrefixes5.any (fun p => name.startsWith p)

/-- Go `strings.ToLower` restricted to ASCII letters. The names compared
against the reserved-name tables are pure ASCII, and lowering never maps a
non-ASCII character onto ASCII, so this is faithful for every use in the
embedded functions. -/
def goToLower (s : String) : String :=
  String.mk (s.toList.map fun c => if 'A' ≤ c && c ≤ 'Z' then Char.ofNat (c.toNat + 32) else c)

/-- The rune count of a Go string (`utf8.RuneCountInString`). -/
def runeCount (s : String) : Nat := s.toList.length

/-- `strings.LastIndexByte(name, '.')` at the character level: index of the
last dot, or none. For the dot character this agrees with the byte-level
index up to re-basing, and the source only uses the suffix after it. -/
def extAfterLastDot (cs : List Char) : List Char :=
  match cs with
  | [] => []
  | c :: rest =>
      let tail := extAfterLastDot rest
      if rest.contains '.' then tail
      else if c == '.' then rest
      else c :: tail

/-- `isFileName` from the ast package. The name must be between 3 and 255
runes, must not start or end with a dot or a space, the extension (the part
after the last dot of the lowered name) must not contain a dot — a check
that can never fail, since the extension is taken after the *last* dot —
and the lowered name must not be reserved on Windows. -/
def isFileName (name : String) : Bool :=
  let length := runeCount name
  if length ≤ 2 || 256 ≤ length then false
  else if name.toList.headD ' ' == '.' || name.toList.getLastD ' ' == '.' then false
  else
    let lower := goToLower name
    let ext := extAfterLastDot lower.toList
    if ext.contains '.' then false
    else if lower.toList.headD '.' == ' ' || lower.toList.getLastD '.' == ' ' then false
    else ! isWindowsReservedName lower

/-- Go `strings.Contains(name, "..")`: two consecutive dots somewhere. -/
def containsDotDot : List Char → Bool
  | c1 :: c2 :: rest => (c1 == '.' && c2 == '.') || containsDotDot (c2 :: rest)
  | _ => false

/-- `isDirName` from the ast package. -/
def isDirName (name : String) : Bool :=
  if name == "" || 256 ≤ runeCount name then false
  else if name == "." || containsDotDot name.toList then false
  else if name.toList.headD '#' == ' ' || name.toList.getLastD '#' == ' ' then false
  else ! isWindowsReservedName name

/-- Go `strings.Split(path, "/")`, by direct recursion on the characters. -/
def splitSlashAux : List Char → List Char → List String
  | [], acc => [String.mk acc.reverse]
  | c :: rest, acc =>
      if c == '/' then String.mk acc.reverse :: splitSlashAux rest []
      else splitSlashAux rest (c :: acc)

/-- Go `strings.Split(path, "/")`. -/
def splitSlash (s : String) : List String := splitSlashAux s.toList []

/-- `IsPath` from the ast package: non-empty, must not end with '/', every
segment but the last must be ".." or a valid directory name (an empty first
segment, from a leading '/', is allowed), and the last segment must be a
valid file name. -/
def IsPath (path : String) : Bool :=
  if path == "" || path.toList.getLastD ' ' == '/' then false
  else
    let names := splitSlash path
    let dirs := names.dropLast
    (dirs.enum.all fun p => (p.1 == 0 && p.2 == "") || p.2 == ".." || isDirName p.2) &&
    isFileName (names.getLastD "")

end PathV

namespace Tpl

/-! ### `Template.UsedVars` (templates package) -/

/-- A global variable of a compiled template (`compiler.Global`): only the
fields read by `UsedVars` and `initGlobalVariables` are represented. -/
structure Global where
  pkg : String
  name : String
deriving DecidableEq, Repr

/-- A built template: the fields of `Template` other than `globals` are not
read by `UsedVars` and are omitted. -/
structure TemplateT where
  globals : List Global
deriving DecidableEq, Repr

/-- `Template.UsedVars`: collects the name of every global and sorts the
names; `sort.Strings` sorts in ascending lexicographic order, which on the
UTF-8 byte representation agrees with the code-point order used here. -/
def UsedVars (t : TemplateT) : List String :=
  List.insertionSort (fun a b => a ≤ b) (t.globals.map Global.name)

end Tpl

/-- C4: the claim says a file name is valid only if it is 3 to 255
characters long, has an extension, and does not start or end with a dot.
The code enforces the length and dot conditions but the extension check is
vacuous (the extension is taken after the last dot, so it can never contain
another dot), so the extensionless name "abc" — and the path "abc" — are
accepted, contradicting the claim and the source's own comment
"Extension must be present". -/
theorem isFileName_accepts_extensionless :
    PathV.isFileName "abc" = true ∧ PathV.IsPath "abc" = true := by
  constructor <;> decide

/-- C10: `UsedVars` returns one name per global — its length equals the
number of globals —, the returned names are exactly the names of the
globals (as a multiset), and they are sorted in ascending lexicographic
order. The function is pure: it reads only `t.globals` and builds a fresh
list, so it cannot fail nor modify the template. -/
theorem usedVars_spec (t : Tpl.TemplateT) :
    (Tpl.UsedVars t).length = t.globals.length ∧
    (Tpl.UsedVars t).Perm (t.globals.map Tpl.Global.name) ∧
    (Tpl.UsedVars t).Sorted (fun a b => a ≤ b) := by
  have hp := List.perm_insertionSort (fun a b => a ≤ b) (t.globals.map Tpl.Global.name)
  exact ⟨hp.length_eq.trans (List.length_map _ _), hp, List.sorted_insertionSort _ _⟩

namespace ConstEval

/-! ### Constant evaluation (`typechecker.binaryOp`, parser package)

Embeds the evaluation of a binary expression whose two operands are untyped
constants. `go/constant` values are exact rationals; numbers are therefore
modelled as `ℚ` and the big-integer quotient as truncated division.
-/

/-- The default type tag of an untyped constant. The promotion order
int < rune < float64 is the one used by the source's
`if c.DefaultType < c2.DefaultType` comparison. -/
inductive DefaultType where
  | int
  | rune
  | float64
  | string
  | bool
deriving DecidableEq, Repr

/-- Numeric value of the default-type enum, giving the promotion order. -/
def DefaultType.ord : DefaultType → Nat
  | .int => 0
  | .rune => 1
  | .float64 => 2
  | .string => 3
  | .bool => 4

/-- Whether the default type is one of the numeric kinds. -/
def DefaultType.isNumeric : DefaultType → Bool
  | .int => true
  | .rune => true
  | .float64 => true
  | _ => false

/-- An untyped constant (`ast.Constant`): a default type together with the
representation fields; only the field selected by the default type is
meaningful, the others keep their zero values. -/
structure GoConst where
  defaultType : DefaultType
  number : ℚ := 0
  strVal : String := ""
  boolVal : Bool := false
deriving DecidableEq, Repr

/-- The binary operators evaluated by `binaryOp`. -/
inductive Op where
  | equal
  | notEqual
  | less
  | lessOrEqual
  | greater
  | greaterOrEqual
  | addition
  | subtraction
  | multiplication
  | division
  | modulo
  | and
  | or
deriving DecidableEq, Repr

/-- Failures of constant evaluation. `divisionByZero` is `errDivisionByZero`
("division by zero") and `floatModulo` is `errFloatModulo`;
`invalidOperation` is the "operator not defined on" diagnostic, and
`internal` marks states the source reaches only through a run-time panic
(a failed type assertion or a failed big-integer parse). -/
inductive CheckError where
  | divisionByZero
  | floatModulo
  | invalidOperation
  | internal
deriving DecidableEq, Repr

/-- The default type of the result of a numeric operation: the larger of
the two operand default types in promotion order. -/
def promote (d1 d2 : DefaultType) : DefaultType :=
  if d1.ord < d2.ord then d2 else d1

/-- A rational that is an integer, as an integer (the value a numeric
constant of integer default type always has). -/
def ratToInt (q : ℚ) : Option ℤ :=
  if q.den = 1 then some q.num else none

/-- The numeric branch of `binaryOp` (the `default:` case of the switch on
the first operand's default type): comparisons produce a bool constant;
add, sub and mul are exact; division by the constant zero is
`errDivisionByZero`; division with a float64 operand is the exact quotient
while integer division truncates toward zero; modulo first rejects float64
operands with `errFloatModulo`, then a zero divisor with
`errDivisionByZero`, and otherwise is the truncated remainder. -/
def binaryOpNumber (op : Op) (c1 c2 : GoConst) : Except CheckError GoConst :=
  let promoted := promote c1.defaultType c2.defaultType
  match op with
  | .equal => .ok { defaultType := .bool, boolVal := decide (c1.number = c2.number) }
  | .notEqual => .ok { defaultType := .bool, boolVal := decide (c1.number ≠ c2.number) }
  | .less => .ok { defaultType := .bool, boolVal := decide (c1.number < c2.number) }
  | .lessOrEqual => .ok { defaultType := .bool, boolVal := decide (c1.number ≤ c2.number) }
  | .greater => .ok { defaultType := .bool, boolVal := decide (c2.number < c1.number) }
  | .greaterOrEqual => .ok { defaultType := .bool, boolVal := decide (c2.number ≤ c1.number) }
  | .addition => .ok { defaultType := promoted, number := c1.number + c2.number }
  | .subtraction => .ok { defaultType := promoted, number := c1.number - c2.number }
  | .multiplication => .ok { defaultType := promoted, number := c1.number * c2.number }
  | .division =>
      if c2.number = 0 then .error .divisionByZero
      else if c1.defaultType = .float64 ∨ c2.defaultType = .float64 then
        .ok { defaultType := promoted, number := c1.number / c2.number }
      else
        match ratToInt c1.number, ratToInt c2.number with
        | some a, some b => .ok { defaultType := promoted, number := (a.tdiv b : ℤ) }
        | _, _ => .error .internal
  | .modulo =>
      if c1.defaultType = .float64 ∨ c2.defaultType = .float64 then
        .error .floatModulo
      else if c2.number = 0 then .error .divisionByZero
      else
        match ratToInt c1.number, ratToInt c2.number with
        | some a, some b => .ok { defaultType := promoted, number := (a.tmod b : ℤ) }
        | _, _ => .error .internal
  | .and => .error .internal
  | .or => .error .internal

/-- The string branch of `binaryOp`. The source compares the `Bool` fields
of the two constants for equality (not the `String` fields), and an
operator outside the branch's switch leaves the zero-valued constant
(default type int); both behaviours are kept. -/
def binaryOpString (op : Op) (c1 c2 : GoConst) : Except CheckError GoConst :=
  match op with
  | .equal => .ok { defaultType := .bool, boolVal := c1.boolVal == c2.boolVal }
  | .notEqual => .ok { defaultType := .bool, boolVal := !(c1.boolVal == c2.boolVal) }
  | .addition => .ok { defaultType := .string, strVal := c1.strVal ++ c2.strVal }
  | _ => .ok { defaultType := .int }

/-- The bool branch of `binaryOp`: equality, inequality, `and` and `or`;
any other operator is the "operator not defined on bool" diagnostic. -/
def binaryOpBool (op : Op) (c1 c2 : GoConst) : Except CheckError GoConst :=
  match op with
  | .equal => .ok { defaultType := .bool, boolVal := c1.boolVal == c2.boolVal }
  | .notEqual => .ok { defaultType := .bool, boolVal := c1.boolVal != c2.boolVal }
  | .and => .ok { defaultType := .bool, boolVal := c1.boolVal && c2.boolVal }
  | .or => .ok { defaultType := .bool, boolVal := c1.boolVal || c2.boolVal }
  | _ => .error .invalidOperation

/-- `typechecker.binaryOp`: evaluates `c1 op c2` for two untyped constants,
dispatching on the first operand's default type. -/
def binaryOp (op : Op) (c1 c2 : GoConst) : Except CheckError GoConst :=
  match c1.defaultType with
  | .string => binaryOpString op c1 c2
  | .bool => binaryOpBool op c1 c2
  | .int => binaryOpNumber op c1 c2
  | .rune => binaryOpNumber op c1 c2
  | .float64 => binaryOpNumber op c1 c2

end ConstEval

/-- C7 counterexample: for the modulo of two float64 constants whose right
operand is zero, checking fails with the float-modulo error, not with the
"division by zero" error the claim requires for every division or modulo
with a zero right operand. -/
theorem binaryOp_mod_float_zero_not_divByZero :
    ConstEval.binaryOp .modulo
        { defaultType := .float64, number := 1 }
        { defaultType := .float64, number := 0 }
      = Except.error ConstEval.CheckError.floatModulo ∧
    ConstEval.binaryOp .modulo
        { defaultType := .float64, number := 1 }
        { defaultType := .float64, number := 0 }
      ≠ Except.error ConstEval.CheckError.divisionByZero := by
  have h : ConstEval.binaryOp .modulo
      { defaultType := .float64, number := 1 }
      { defaultType := .float64, number := 0 }
    = Except.error ConstEval.CheckError.floatModulo := rfl
  exact ⟨h, by rw [h]; simp⟩

/-- C7 (amended): for untyped numeric constants, evaluation is exact
(add and mul shown): division by the constant zero fails with the
"division by zero" error; modulo with a float64 default type on either
side fails with the float-modulo error — taking precedence even when the
right operand is zero — and modulo of non-float constants by the constant
zero fails with the "division by zero" error. All failures are produced by
the type checker, before any code runs. -/
theorem binaryOp_divmod_spec (c1 c2 : ConstEval.GoConst)
    (h1 : c1.defaultType.isNumeric = true)
    (h2 : c2.defaultType.isNumeric = true) :
    (c2.number = 0 →
      ConstEval.binaryOp .division c1 c2 = .error .divisionByZero) ∧
    (c1.defaultType = .float64 ∨ c2.defaultType = .float64 →
      ConstEval.binaryOp .modulo c1 c2 = .error .floatModulo) ∧
    (c1.defaultType ≠ .float64 → c2.defaultType ≠ .float64 → c2.number = 0 →
      ConstEval.binaryOp .modulo c1 c2 = .error .divisionByZero) ∧
    ConstEval.binaryOp .addition c1 c2 =
      .ok { defaultType := ConstEval.promote c1.defaultType c2.defaultType,
            number := c1.number + c2.number } ∧
    ConstEval.binaryOp .multiplication c1 c2 =
      .ok { defaultType := ConstEval.promote c1.defaultType c2.defaultType,
            number := c1.number * c2.number } := by
  obtain ⟨d1, n1, s1, b1⟩ := c1
  obtain ⟨d2, n2, s2, b2⟩ := c2
  refine ⟨fun hz => ?_, fun hf => ?_, fun hf1 hf2 hz => ?_, ?_, ?_⟩ <;>
    cases d1 <;> simp_all [ConstEval.binaryOp, ConstEval.binaryOpNumber,
      ConstEval.DefaultType.isNumeric]

/-- C7 witness: instantiates the division/modulo property at the constants
7 and 0 of integer default type. -/
theorem binaryOp_divmod_spec_witness :
    ConstEval.binaryOp .division
        { defaultType := .int, number := 7 }
        { defaultType := .int, number := 0 }
      = Except.error ConstEval.CheckError.divisionByZero :=
  (binaryOp_divmod_spec
    { defaultType := .int, number := 7 }
    { defaultType := .int, number := 0 }
    (by decide) (by decide)).1 (by norm_num)

namespace VMRun

/-! ### VM call, return and tail call (vm package, `VM.run`)

Embeds the state transition of the `opCall`, `opReturn` and `opTailCall`
instructions. Register contents are not needed by the claim and are
omitted; the state keeps the frame pointers, the bank sizes, the call
stack and the closure-variable reference. The resolution of the callee
(closure register vs. package function table) is abstracted into the
`callee` argument of the step, and the stack-growing functions
(`moreIntStack` and its siblings), which are not part of the sources,
are kept abstract as the `grow` parameter. Shift-word fields are `int8`
values converted with `uint32(...)`; the emitter only produces
non-negative shifts, so they are modelled as `Nat`.
-/

/-- A VM function: only the register counts of the four banks are read by
the call instructions. -/
structure Func where
  regnum0 : Nat
  regnum1 : Nat
  regnum2 : Nat
  regnum3 : Nat
deriving DecidableEq, Repr

/-- The four per-bank cursors (used both for the frame pointers `fp` and
for the bank sizes `st`): int, float, string and general bank. -/
structure Banks where
  int : Nat
  float : Nat
  str : Nat
  gen : Nat
deriving DecidableEq, Repr

/-- A call-stack record (`Call`): the function, closure variables, frame
pointers and return pc of the caller; `tail` marks records pushed by a
tail call, whose `fp` field keeps its zero value. -/
structure CallRec where
  fn : Func
  cvars : Option Nat
  fp : Banks
  pc : Nat
  tail : Bool := false
deriving DecidableEq, Repr

/-- The VM state read and written by the call instructions. -/
structure VMState where
  fn : Func
  fp : Banks
  st : Banks
  calls : List CallRec
  cvars : Option Nat
deriving DecidableEq, Repr

/-- The register-shift word following a `Call` instruction; the source
reads `off.op`, `off.b` and `off.c` as the shifts of the int, string and
general banks, and never reads `off.a`. -/
structure ShiftWord where
  op : Nat
  a : Nat
  b : Nat
  c : Nat
deriving DecidableEq, Repr

/-- The `opCall` transition. `pc` is the program counter after fetching the
`Call` instruction (so `pc` addresses the shift word and `pc + 1` the
return point); `callee` and `cv` are the resolved target function and its
closure variables. Returns the new state and the new program counter. -/
def callStep (grow : Nat → Nat) (vm : VMState) (pc : Nat) (off : ShiftWord)
    (callee : Func) (cv : Option Nat) : VMState × Nat :=
  let call : CallRec := { fn := vm.fn, cvars := vm.cvars, fp := vm.fp, pc := pc + 1 }
  let fp0 := vm.fp.int + off.op
  let st0 := if vm.st.int < fp0 + callee.regnum0 then grow vm.st.int else vm.st.int
  let st1 := if vm.st.float < vm.fp.float + callee.regnum1 then grow vm.st.float
             else vm.st.float
  let fp2 := vm.fp.str + off.b
  let st2 := if vm.st.str < fp2 + callee.regnum2 then grow vm.st.str else vm.st.str
  let fp3 := vm.fp.gen + off.c
  let st3 := if vm.st.gen < fp3 + callee.regnum3 then grow vm.st.gen else vm.st.gen
  ({ fn := callee,
     fp := { int := fp0, float := vm.fp.float, str := fp2, gen := fp3 },
     st := { int := st0, float := st1, str := st2, gen := st3 },
     calls := vm.calls ++ [call],
     cvars := cv }, 0)

/-- The pop loop of `opReturn` on the reversed call stack: skips records
with `tail` set and yields the first non-tail record together with the
(reversed) records below it; `none` models both the empty call stack (the
run terminates) and an all-tail stack (unreachable: the source would index
out of range). -/
def dropTails : List CallRec → Option (List CallRec × CallRec)
  | [] => none
  | c :: rest => if c.tail then dropTails rest else some (rest, c)

/-- The `opReturn` transition: pops every trailing tail record and the
first non-tail record, and restores `fn`, `fp` and `cvars` from it; the
returned `Nat` is the restored program counter. -/
def returnStep (vm : VMState) : Option (VMState × Nat) :=
  match dropTails vm.calls.reverse with
  | none => none
  | some (restRev, call) =>
      some ({ fn := call.fn, fp := call.fp, st := vm.st,
              calls := restRev.reverse, cvars := call.cvars }, call.pc)

/-- The `opTailCall` transition. `callee = none` models `b ==
CurrentFunction` (the function calls itself); otherwise the resolved
target and its closure variables. A tail-flagged record with a zero `fp`
is pushed, the frame pointers are left unshifted, each bank is grown if
the callee's registers overflow it at the current frame pointers, and the
program counter becomes 0. -/
def tailCallStep (grow : Nat → Nat) (vm : VMState) (pc : Nat)
    (callee : Option (Func × Option Nat)) : VMState × Nat :=
  let pushed : CallRec :=
    { fn := vm.fn, cvars := vm.cvars, fp := ⟨0, 0, 0, 0⟩, pc := pc, tail := true }
  match callee with
  | none => ({ vm with calls := vm.calls ++ [pushed] }, 0)
  | some (fn, cv) =>
      let st0 := if vm.st.int < vm.fp.int + fn.regnum0 then grow vm.st.int else vm.st.int
      let st1 := if vm.st.float < vm.fp.float + fn.regnum1 then grow vm.st.float
                 else vm.st.float
      let st2 := if vm.st.str < vm.fp.str + fn.regnum2 then grow vm.st.str else vm.st.str
      let st3 := if vm.st.gen < vm.fp.gen + fn.regnum3 then grow vm.st.gen else vm.st.gen
      ({ fn := fn, fp := vm.fp, st := ⟨st0, st1, st2, st3⟩,
         calls := vm.calls ++ [pushed], cvars := cv }, 0)

/-- Skipping a run of tail records: the pop loop of `opReturn` lands on the
first non-tail record from the top. -/
theorem dropTails_skips (ts rest : List CallRec) (c : CallRec)
    (ht : ∀ t ∈ ts, t.tail = true) (hc : c.tail = false) :
    dropTails (ts ++ c :: rest) = some (rest, c) := by
  induction ts with
  | nil => simp [dropTails, hc]
  | cons t ts ih =>
      have htail := ht t (by simp)
      simp only [List.cons_append, dropTails, htail, if_pos]
      exact ih fun t' h' => ht t' (by simp [h'])

end VMRun

/-- C3 counterexample: (i) a tail call *does* push a record on the call
stack (a tail-flagged one), and (ii) `opCall` leaves the float-bank frame
pointer unchanged even when the shift word carries a float shift, so not
every bank's frame pointer is moved to its new window base. Shown on a
concrete state with one float shift and frame pointer 5. -/
theorem vm_call_claim_counterexample :
    (VMRun.tailCallStep (fun n => 2 * n)
        ⟨⟨2, 2, 2, 2⟩, ⟨5, 5, 5, 5⟩, ⟨16, 16, 16, 16⟩, [], none⟩ 7 none).1.calls.length
      = 0 + 1 ∧
    (VMRun.callStep (fun n => 2 * n)
        ⟨⟨2, 2, 2, 2⟩, ⟨5, 5, 5, 5⟩, ⟨16, 16, 16, 16⟩, [], none⟩ 3 ⟨1, 1, 1, 1⟩
        ⟨2, 2, 2, 2⟩ none).1.fp.float = 5 ∧
    (5 : Nat) ≠ 5 + 1 := by
  refine ⟨rfl, rfl, by decide⟩

/-- C3 (amended): on `opCall` the VM pushes the return record
`(fn, pc + 1, cvars, fp)` taken before any change, shifts the frame
pointers of the int, string and general banks by the shift word's
offsets — the float-bank frame pointer is left unchanged —, grows exactly
the banks whose (overflow-checked) frame would exceed the bank size, and
jumps to pc 0; `opReturn` pops every trailing tail-flagged record together
with the first non-tail record and restores `fn`, `pc`, `cvars` and `fp`
from the latter; `opTailCall` pushes a tail-flagged record (with a zero
`fp` field) that `opReturn` skips, and jumps to pc 0 without shifting any
frame pointer. -/
theorem vm_call_return_spec (grow : Nat → Nat) (vm : VMRun.VMState) (pc : Nat)
    (off : VMRun.ShiftWord) (callee : VMRun.Func) (cv : Option Nat)
    (cs ts : List VMRun.CallRec) (c : VMRun.CallRec)
    (ht : ∀ t ∈ ts, t.tail = true) (hc : c.tail = false) :
    VMRun.callStep grow vm pc off callee cv =
      ({ fn := callee,
         fp := { int := vm.fp.int + off.op, float := vm.fp.float,
                 str := vm.fp.str + off.b, gen := vm.fp.gen + off.c },
         st := { int := if vm.st.int < vm.fp.int + off.op + callee.regnum0 then
                          grow vm.st.int else vm.st.int,
                 float := if vm.st.float < vm.fp.float + callee.regnum1 then
                            grow vm.st.float else vm.st.float,
                 str := if vm.st.str < vm.fp.str + off.b + callee.regnum2 then
                          grow vm.st.str else vm.st.str,
                 gen := if vm.st.gen < vm.fp.gen + off.c + callee.regnum3 then
                          grow vm.st.gen else vm.st.gen },
         calls := vm.calls ++ [{ fn := vm.fn, cvars := vm.cvars, fp := vm.fp, pc := pc + 1 }],
         cvars := cv }, 0) ∧
    VMRun.returnStep { fn := vm.fn, fp := vm.fp, st := vm.st,
                       calls := cs ++ c :: ts, cvars := vm.cvars } =
      some ({ fn := c.fn, fp := c.fp, st := vm.st, calls := cs, cvars := c.cvars }, c.pc) ∧
    (VMRun.tailCallStep grow vm pc none).1.calls =
      vm.calls ++ [{ fn := vm.fn, cvars := vm.cvars, fp := ⟨0, 0, 0, 0⟩,
                     pc := pc, tail := true }] ∧
    (VMRun.tailCallStep grow vm pc none).2 = 0 ∧
    (VMRun.tailCallStep grow vm pc (some (callee, cv))).1.fp = vm.fp ∧
    (VMRun.tailCallStep grow vm pc (some (callee, cv))).1.calls =
      vm.calls ++ [{ fn := vm.fn, cvars := vm.cvars, fp := ⟨0, 0, 0, 0⟩,
                     pc := pc, tail := true }] := by
  refine ⟨rfl, ?_, rfl, rfl, rfl, rfl⟩
  have hd : VMRun.dropTails (ts.reverse ++ c :: cs.reverse) = some (cs.reverse, c) :=
    VMRun.dropTails_skips ts.reverse cs.reverse c
      (fun t h => ht t (by simpa using h)) hc
  simp [VMRun.returnStep, hd]

/-- C3 witness: the call/return/tail-call property instantiated on a
one-record call stack below a single tail record. -/
theorem vm_call_return_spec_witness :
    VMRun.returnStep
      { fn := ⟨2, 2, 2, 2⟩, fp := ⟨9, 9, 9, 9⟩, st := ⟨16, 16, 16, 16⟩,
        calls := [{ fn := ⟨1, 1, 1, 1⟩, cvars := none, fp := ⟨3, 3, 3, 3⟩, pc := 11 },
                  { fn := ⟨2, 2, 2, 2⟩, cvars := some 1, fp := ⟨0, 0, 0, 0⟩,
                    pc := 4, tail := true }],
        cvars := none } =
      some ({ fn := ⟨1, 1, 1, 1⟩, fp := ⟨3, 3, 3, 3⟩, st := ⟨16, 16, 16, 16⟩,
              calls := [], cvars := none }, 11) :=
  (vm_call_return_spec (fun n => 2 * n)
      { fn := ⟨2, 2, 2, 2⟩, fp := ⟨9, 9, 9, 9⟩, st := ⟨16, 16, 16, 16⟩,
        calls := [], cvars := none }
      0 ⟨0, 0, 0, 0⟩ ⟨2, 2, 2, 2⟩ none
      []
      [{ fn := ⟨2, 2, 2, 2⟩, cvars := some 1, fp := ⟨0, 0, 0, 0⟩, pc := 4, tail := true }]
      { fn := ⟨1, 1, 1, 1⟩, cvars := none, fp := ⟨3, 3, 3, 3⟩, pc := 11 }
      (by intro t h; simp at h; rw [h]) rfl).2.1

namespace TplPkg

/-! ### Template page to package (`typechecker.templatePageToPackage`)

Embeds the conversion of a template file's top-level nodes into the node
list of a synthetic package, as performed when a template is imported as a
library or used through extends.
-/

/-- Go `unicode.IsSpace`: the White_Space code points. -/
def goIsSpace (c : Char) : Bool :=
  ('\x09' ≤ c && c ≤ '\x0d') || c == ' ' || c == '\x85' || c == '\xa0' ||
  c == Char.ofNat 0x1680 || (Char.ofNat 0x2000 ≤ c && c ≤ Char.ofNat 0x200a) ||
  c == Char.ofNat 0x2028 || c == Char.ofNat 0x2029 || c == Char.ofNat 0x202f ||
  c == Char.ofNat 0x205f || c == Char.ofNat 0x3000

/-- Whether `strings.TrimSpace(s)` is empty: every character is a space. -/
def trimSpaceEmpty (s : String) : Bool := s.toList.all goIsSpace

/-- The top-level template nodes relevant to the conversion. Declaration
nodes carry an identifier so that distinct nodes of the same kind can be
told apart; `other` stands for any other statement node. -/
inductive Node where
  | comment (text : String)
  | macroDecl (id : Nat)
  | varDecl (id : Nat)
  | typeDecl (id : Nat)
  | constDecl (id : Nat)
  | importDecl (id : Nat)
  | extendsDecl (id : Nat)
  | text (s : String)
  | packageNode (nodes : List Node)
  | other (id : Nat)
deriving Repr

/-- The nodes lifted into the synthetic package: the macro, var, type,
const, extends declarations and imports. -/
def isDeclNode : Node → Bool
  | .macroDecl _ => true
  | .varDecl _ => true
  | .typeDecl _ => true
  | .constDecl _ => true
  | .importDecl _ => true
  | .extendsDecl _ => true
  | _ => false

/-- The nodes silently dropped by the conversion: comments and
whitespace-only text. -/
def isDropped : Node → Bool
  | .comment _ => true
  | .text s => trimSpaceEmpty s
  | _ => false

/-- The error reported for any other top-level node. -/
def declMsg : String :=
  "template declarations can only contain extends, import or declaration statements"

/-- The node-collecting loop of `templatePageToPackage`: comments are
skipped, declarations are appended, whitespace-only text is skipped, and
any other node is the compile error `declMsg`. -/
def collectDecls : List Node → Except String (List Node)
  | [] => .ok []
  | n :: rest =>
      match n with
      | .comment _ => collectDecls rest
      | .macroDecl i => (collectDecls rest).map (Node.macroDecl i :: ·)
      | .varDecl i => (collectDecls rest).map (Node.varDecl i :: ·)
      | .typeDecl i => (collectDecls rest).map (Node.typeDecl i :: ·)
      | .constDecl i => (collectDecls rest).map (Node.constDecl i :: ·)
      | .importDecl i => (collectDecls rest).map (Node.importDecl i :: ·)
      | .extendsDecl i => (collectDecls rest).map (Node.extendsDecl i :: ·)
      | .text s =>
          if trimSpaceEmpty s then collectDecls rest else .error declMsg
      | _ => .error declMsg

/-- Whether the tree already consists of a single package node (in which
case `templatePageToPackage` does nothing). -/
def isSinglePackage : List Node → Bool
  | [Node.packageNode _] => true
  | _ => false

/-- `typechecker.templatePageToPackage`: if the tree is already a single
package it is left unchanged, otherwise the collected declarations become
the nodes of a synthetic package that replaces the tree's nodes. -/
def templatePageToPackage (tree : List Node) : Except String (List Node) :=
  if isSinglePackage tree then .ok tree
  else (collectDecls tree).map fun ds => [Node.packageNode ds]

/-- The collecting loop keeps exactly the declaration nodes, in order, when
every node is a declaration or droppable, and reports `declMsg` otherwise. -/
theorem collectDecls_characterization (nodes : List Node) :
    collectDecls nodes =
      if nodes.all (fun n => isDeclNode n || isDropped n)
      then .ok (nodes.filter isDeclNode)
      else .error declMsg := by
  induction nodes with
  | nil => rfl
  | cons n rest ih =>
      cases hall : rest.all (fun n => isDeclNode n || isDropped n) <;>
        cases n <;>
        simp [collectDecls, ih, hall, isDeclNode, isDropped, Except.map,
          List.filter_cons] <;>
        split_ifs <;> simp_all

end TplPkg

/-- C5: converting a template file that is not already a package lifts
exactly the top-level macro, var, type, const, import and extends nodes —
in order — into the synthetic package; comment nodes and whitespace-only
text nodes are silently dropped; any other top-level node produces the
compile error "template declarations can only contain extends, import or
declaration statements". -/
theorem templatePageToPackage_spec (nodes : List TplPkg.Node)
    (hnp : TplPkg.isSinglePackage nodes = false) :
    TplPkg.templatePageToPackage nodes =
      if nodes.all (fun n => TplPkg.isDeclNode n || TplPkg.isDropped n)
      then .ok [TplPkg.Node.packageNode (nodes.filter TplPkg.isDeclNode)]
      else .error TplPkg.declMsg := by
  rw [TplPkg.templatePageToPackage, hnp, TplPkg.collectDecls_characterization]
  cases h : nodes.all (fun n => TplPkg.isDeclNode n || TplPkg.isDropped n) <;>
    simp [Except.map]

/-- C5 witness: a macro declaration, a comment, a whitespace text and a var
declaration are lifted into a package holding exactly the two declarations. -/
theorem templatePageToPackage_spec_witness :
    TplPkg.templatePageToPackage
        [TplPkg.Node.macroDecl 1, TplPkg.Node.comment "c",
         TplPkg.Node.text " \n", TplPkg.Node.varDecl 2] =
      Except.ok [TplPkg.Node.packageNode [TplPkg.Node.macroDecl 1, TplPkg.Node.varDecl 2]] := by
  have h := templatePageToPackage_spec
    [TplPkg.Node.macroDecl 1, TplPkg.Node.comment "c",
     TplPkg.Node.text " \n", TplPkg.Node.varDecl 2] rfl
  simpa using h

namespace ShowCheck

/-! ### Type checking of `show` (`checkNodes`, case `*ast.Show`)

Embeds the per-context acceptance check performed on the operand type of a
`show` statement. A Go type is represented by its reflect kind plus the
properties the check reads: identity with the empty-interface and
byte-slice types, and implementation of the Stringer, HTMLStringer and
CSSStringer interfaces. `printedAsJavaScript`, whose definition is not
part of the sources, is kept abstract as the `jsOK` parameter.
-/

/-- The reflect kinds, in the order of the reflect package's enumeration
(the source compares kinds with `<=`). -/
inductive Kind where
  | invalid
  | bool
  | int
  | int8
  | int16
  | int32
  | int64
  | uint
  | uint8
  | uint16
  | uint32
  | uint64
  | uintptr
  | float32
  | float64
  | complex64
  | complex128
  | array
  | chan
  | func
  | interfaceK
  | mapK
  | ptr
  | slice
  | string
  | structK
  | unsafePointer
deriving DecidableEq, Repr, Fintype

/-- The numeric rank of a kind in the reflect enumeration. -/
def Kind.rank : Kind → Nat
  | .invalid => 0
  | .bool => 1
  | .int => 2
  | .int8 => 3
  | .int16 => 4
  | .int32 => 5
  | .int64 => 6
  | .uint => 7
  | .uint8 => 8
  | .uint16 => 9
  | .uint32 => 10
  | .uint64 => 11
  | .uintptr => 12
  | .float32 => 13
  | .float64 => 14
  | .complex64 => 15
  | .complex128 => 16
  | .array => 17
  | .chan => 18
  | .func => 19
  | .interfaceK => 20
  | .mapK => 21
  | .ptr => 22
  | .slice => 23
  | .string => 24
  | .structK => 25
  | .unsafePointer => 26

/-- A Go type as seen by the show check. -/
structure GoType where
  kind : Kind
  isEmptyInterface : Bool := false
  isByteSlice : Bool := false
  implStringer : Bool := false
  implHTMLStringer : Bool := false
  implCSSStringer : Bool := false
deriving DecidableEq, Repr, Fintype

/-- The rendering contexts a `show` can appear in (`ast.Context`):
`attr`/`unquotedAttr` are ContextAttribute/ContextUnquotedAttribute. -/
inductive Context where
  | text
  | html
  | tag
  | attr
  | unquotedAttr
  | css
  | cssString
  | javaScript
  | javaScriptString
deriving DecidableEq, Repr

/-- The "cannot print" compile errors, one per context family. -/
inductive ShowError where
  | cannotPrintAsText
  | cannotPrintAsHTML
  | cannotPrintAsCSS
  | cannotPrintJS
deriving DecidableEq, Repr

/-- The branch of the show check shared by the Text, Tag, Attribute,
UnquotedAttribute, CSSString and JavaScriptString contexts: strings, every
kind from bool through complex128, the empty interface, byte slices (only
in CSSString context) and Stringer implementers are accepted. -/
def showCheckTextLike (ctx : Context) (t : GoType) : Except ShowError Unit :=
  if t.kind == .string then .ok ()
  else if Kind.rank .bool ≤ t.kind.rank && t.kind.rank ≤ Kind.rank .complex128 then .ok ()
  else if t.isEmptyInterface then .ok ()
  else if ctx == .cssString && t.isByteSlice then .ok ()
  else if t.implStringer then .ok ()
  else .error .cannotPrintAsText

/-- The HTML branch of the show check: like the text branch (without byte
slices) plus HTMLStringer implementers. -/
def showCheckHTML (t : GoType) : Except ShowError Unit :=
  if t.kind == .string then .ok ()
  else if Kind.rank .bool ≤ t.kind.rank && t.kind.rank ≤ Kind.rank .complex128 then .ok ()
  else if t.isEmptyInterface then .ok ()
  else if t.implStringer then .ok ()
  else if t.implHTMLStringer then .ok ()
  else .error .cannotPrintAsHTML

/-- The CSS branch of the show check: strings, the kinds int through
float64, the empty interface, byte slices and CSSStringer implementers. -/
def showCheckCSS (t : GoType) : Except ShowError Unit :=
  if t.kind == .string then .ok ()
  else if Kind.rank .int ≤ t.kind.rank && t.kind.rank ≤ Kind.rank .float64 then .ok ()
  else if t.isEmptyInterface then .ok ()
  else if t.isByteSlice then .ok ()
  else if t.implCSSStringer then .ok ()
  else .error .cannotPrintAsCSS

/-- The show-operand check of `checkNodes` (case `*ast.Show`), dispatching
on the rendering context; in JavaScript context acceptance is decided by
`printedAsJavaScript` (`jsOK`). -/
def showCheck (ctx : Context) (t : GoType) (jsOK : GoType → Bool) : Except ShowError Unit :=
  match ctx with
  | .text => showCheckTextLike ctx t
  | .tag => showCheckTextLike ctx t
  | .attr => showCheckTextLike ctx t
  | .unquotedAttr => showCheckTextLike ctx t
  | .cssString => showCheckTextLike ctx t
  | .javaScriptString => showCheckTextLike ctx t
  | .html => showCheckHTML t
  | .css => showCheckCSS t
  | .javaScript => if jsOK t then .ok () else .error .cannotPrintJS

/-- The acceptance predicate exactly as the claim words it (the spec side
of the comparison): strings, all numeric kinds, the empty interface and
Stringer implementers in the text-like contexts; HTML additionally
HTMLStringer; CSS additionally byte slices and CSSStringer; JavaScript
decided by the predicate. Note bool is not a numeric kind. -/
def claimAccepts (ctx : Context) (t : GoType) (jsOK : GoType → Bool) : Bool :=
  let isNumeric :=
    (Kind.rank .int ≤ t.kind.rank && t.kind.rank ≤ Kind.rank .complex128)
  let base := t.kind == .string || isNumeric || t.isEmptyInterface || t.implStringer
  match ctx with
  | .javaScript => jsOK t
  | .html => base || t.implHTMLStringer
  | .css => base || t.isByteSlice || t.implCSSStringer
  | _ => base

/-- The per-context acceptance the code actually implements. -/
def codeAccepts (ctx : Context) (t : GoType) (jsOK : GoType → Bool) : Bool :=
  let boolToComplex :=
    (Kind.rank .bool ≤ t.kind.rank && t.kind.rank ≤ Kind.rank .complex128)
  let base := t.kind == .string || boolToComplex || t.isEmptyInterface || t.implStringer
  match ctx with
  | .javaScript => jsOK t
  | .html => base || t.implHTMLStringer
  | .css =>
      t.kind == .string ||
      (Kind.rank .int ≤ t.kind.rank && t.kind.rank ≤ Kind.rank .float64) ||
      t.isEmptyInterface || t.isByteSlice || t.implCSSStringer
  | .cssString => base || t.isByteSlice
  | _ => base

/-- The "cannot print" error reported in each context. -/
def ctxError : Context → ShowError
  | .html => .cannotPrintAsHTML
  | .css => .cannotPrintAsCSS
  | .javaScript => .cannotPrintJS
  | _ => .cannotPrintAsText

end ShowCheck

/-- C1 counterexample: in Text context the checker accepts an operand of
kind bool (the accepted kind range starts at bool, not at the numeric
kinds), which the claim's acceptance set excludes; and in CSS context the
checker rejects a complex128 operand, which the claim ("all numeric
kinds") includes. -/
theorem showCheck_claim_counterexample :
    ShowCheck.showCheck .text { kind := .bool } (fun _ => false) = .ok () ∧
    ShowCheck.claimAccepts .text { kind := .bool } (fun _ => false) = false ∧
    ShowCheck.showCheck .css { kind := .complex128 } (fun _ => false) =
      .error .cannotPrintAsCSS ∧
    ShowCheck.claimAccepts .css { kind := .complex128 } (fun _ => false) = true := by
  exact ⟨rfl, rfl, rfl, rfl⟩

/-- C1 (amended): the show check accepts exactly the types of
`codeAccepts` — in text, tag, attribute, unquoted-attribute and
JavaScript-string contexts: strings, every kind from bool through
complex128, the empty interface and Stringer implementers; in CSS-string
context additionally byte slices; in HTML context additionally
HTMLStringer implementers; in CSS context: strings, the kinds int through
float64, the empty interface, byte slices and CSSStringer implementers; in
JavaScript context whatever the JSON-style predicate accepts — and any
other operand type is the corresponding "cannot print" compile error. -/
theorem showCheck_spec (ctx : ShowCheck.Context) (t : ShowCheck.GoType)
    (jsOK : ShowCheck.GoType → Bool) :
    ShowCheck.showCheck ctx t jsOK =
      if ShowCheck.codeAccepts ctx t jsOK then .ok ()
      else .error (ShowCheck.ctxError ctx) := by
  cases ctx
  case javaScript =>
    cases hj : jsOK t <;>
      simp [ShowCheck.showCheck, ShowCheck.codeAccepts, ShowCheck.ctxError, hj]
  all_goals
    obtain ⟨k, e, bs, st, ht, cs⟩ := t
    cases e <;> cases bs <;> cases st <;> cases ht <;> cases cs <;> cases k <;> rfl

namespace Cli

/-! ### Command-line driver (`run` in cmd/scriggo)

Embeds the exit behaviour of the driver. Standard-library calls whose
results the driver only branches on — `time.ParseDuration`,
`filepath.Abs`, `ioutil.ReadFile`, `scriggo.Load`, `Disassemble` and
`program.Run` — enter the model as oracle fields of the input; the `-mem`
parsing (unit handling and `strconv.Atoi`) is part of the source and is
embedded. A Go program aborted by an unrecovered panic terminates with
exit status 2; the model keeps that outcome distinct as `goPanic`. -/

/-- The outcome of parsing a command-line flag that takes a value. -/
inductive FlagParse (α : Type) where
  | absent
  | invalid
  | valid (a : α)
deriving DecidableEq, Repr

/-- Errors `program.Run` can return: a runtime panic (`*runtime.Panic`),
a deadline expiry, or any other error. -/
inductive RunErr where
  | panicErr
  | deadlineExceeded
  | otherErr
deriving DecidableEq, Repr

/-- How the driver process terminates: `os.Exit(n)`, or a Go panic (which
the operating system observes as exit status 2). -/
inductive Outcome where
  | exits (n : Int)
  | goPanic
deriving DecidableEq, Repr

/-- The exit status the operating system observes. -/
def exitStatus : Outcome → Int
  | .exits n => n
  | .goPanic => 2

/-- `strconv.Atoi` digits: all decimal, non-empty, folded to a value. -/
def parseDigits : List Char → Option Nat
  | [] => none
  | cs =>
      if cs.all (fun c => '0' ≤ c && c ≤ '9')
      then some (cs.foldl (fun acc c => 10 * acc + (c.toNat - 48)) 0)
      else none

/-- `strconv.Atoi`: optional sign, decimal digits, 64-bit range. -/
def goAtoi (s : String) : Option Int :=
  match s.toList with
  | '+' :: rest =>
      (parseDigits rest).bind fun n =>
        if n ≤ 2 ^ 63 - 1 then some (n : Int) else none
  | '-' :: rest =>
      (parseDigits rest).bind fun n =>
        if n ≤ 2 ^ 63 then some (-(n : Int)) else none
  | cs =>
      (parseDigits cs).bind fun n =>
        if n ≤ 2 ^ 63 - 1 then some (n : Int) else none

/-- The `-mem` parsing of the driver: the last character is the unit,
upper-cased by subtracting 32 when above 'Z'; a B/K/M/G unit is stripped
before `strconv.Atoi`; the parsed value is scaled by the unit. `none` is
the `Atoi` failure that makes the driver exit with a usage error. -/
def memParse (mem : String) : Option Int :=
  let cs := mem.toList
  let unit0 := cs.getLastD ' '
  let unit := if 'Z' < unit0 then Char.ofNat (unit0.toNat - 32) else unit0
  let stripped :=
    if unit == 'B' || unit == 'K' || unit == 'M' || unit == 'G'
    then String.mk cs.dropLast else mem
  (goAtoi stripped).map fun maxi =>
    if unit == 'K' then maxi * 1024
    else if unit == 'M' then maxi * 1024 * 1024
    else if unit == 'G' then maxi * 1024 * 1024 * 1024
    else maxi

/-- `filepath.Ext`: the suffix of the path starting at the final dot of
the last path element, empty when the element has no dot. -/
def goExtAux : List Char → List Char → String
  | [], _ => ""
  | c :: rest, acc =>
      if c == '/' then ""
      else if c == '.' then String.mk ('.' :: acc)
      else goExtAux rest (c :: acc)

/-- `filepath.Ext` (scans the reversed character list). -/
def goExt (s : String) : String := goExtAux s.toList.reverse []

/-- Everything the driver's control flow branches on. -/
structure DriverInput where
  timeFlag : FlagParse Int
  memFlag : Option String
  args : List String
  absOK : Bool
  readOK : Bool
  loadResult : Except String Unit
  asm : Bool
  disasmOK : Bool
  runResult : Except RunErr Int
deriving DecidableEq, Repr

/-- The driver's `run` function, reduced to its termination behaviour: an
invalid `-time` or `-mem` value, a wrong argument count, a non-`.go`
extension or an `Abs` failure exit with status 1; an unreadable file is a
Go panic; a load failure or a disassemble failure exits with status 2;
`-S` success exits with status 0; a run returning a `*runtime.Panic`
re-panics, any other run error exits with status 2, and a successful run
exits with the code the program returned. -/
def runDriver (inp : DriverInput) : Outcome :=
  if inp.timeFlag = FlagParse.invalid then .exits 1
  else if (match inp.memFlag with
           | some m => (memParse m).isNone
           | none => false) then .exits 1
  else if inp.args.length ≠ 1 then .exits 1
  else if goExt (inp.args.headD "") ≠ ".go" then .exits 1
  else if inp.absOK = false then .exits 1
  else if inp.readOK = false then .goPanic
  else
    match inp.loadResult with
    | .error _ => .exits 2
    | .ok _ =>
        if inp.asm then (if inp.disasmOK then .exits 0 else .exits 2)
        else
          match inp.runResult with
          | .error .panicErr => .goPanic
          | .error _ => .exits 2
          | .ok code => .exits code

/-- No usage error: `-time` and `-mem` parse, exactly one argument, a
`.go` extension and a successful `Abs`. -/
def usageOK (inp : DriverInput) : Bool :=
  decide (inp.timeFlag ≠ FlagParse.invalid) &&
  (match inp.memFlag with
   | some m => (memParse m).isSome
   | none => true) &&
  (inp.args.length == 1) &&
  (goExt (inp.args.headD "") == ".go") &&
  inp.absOK

end Cli

/-- C9: the driver exits with status 1 on every usage error (invalid
`-time` value, invalid `-mem` value, wrong argument count, wrong file
extension); and, when the flags and the file pass, with status 2 on a
build error; with status 0 on `-S` success; with status n when the
executed program terminates via exit(n); and with observed status 2 on a
runtime error — directly for ordinary errors, and through a Go panic
(which the OS reports as status 2) when the error is a `*runtime.Panic`. -/
theorem cli_exit_codes (inp : Cli.DriverInput) :
    (inp.timeFlag = .invalid → Cli.runDriver inp = .exits 1) ∧
    (∀ m, inp.memFlag = some m → Cli.memParse m = none → Cli.runDriver inp = .exits 1) ∧
    (inp.args.length ≠ 1 → Cli.runDriver inp = .exits 1) ∧
    (Cli.goExt (inp.args.headD "") ≠ ".go" → Cli.runDriver inp = .exits 1) ∧
    (Cli.usageOK inp = true → inp.readOK = true →
      ((∀ e, inp.loadResult = .error e → Cli.runDriver inp = .exits 2) ∧
       (inp.loadResult = .ok () → inp.asm = true → inp.disasmOK = true →
         Cli.runDriver inp = .exits 0) ∧
       (inp.loadResult = .ok () → inp.asm = false →
         ∀ n, inp.runResult = .ok n → Cli.runDriver inp = .exits n) ∧
       (inp.loadResult = .ok () → inp.asm = false →
         ∀ e, inp.runResult = .error e →
           Cli.exitStatus (Cli.runDriver inp) = 2))) := by
  refine ⟨?_, ?_, ?_, ?_, ?_⟩
  · intro h
    simp [Cli.runDriver, h]
  · intro m hm hp
    simp only [Cli.runDriver, hm, hp, Option.isNone_none]
    split_ifs <;> rfl
  · intro h
    simp only [Cli.runDriver, h]
    split_ifs <;> rfl
  · intro h
    simp only [Cli.runDriver, h]
    split_ifs <;> rfl
  · intro hu hr
    have hu' := hu
    simp only [Cli.usageOK, Bool.and_eq_true, decide_eq_true_eq, beq_iff_eq] at hu'
    obtain ⟨⟨⟨⟨h1, h2⟩, h3⟩, h4⟩, h5⟩ := hu'
    have hmem : (match inp.memFlag with
                 | some m => (Cli.memParse m).isNone
                 | none => false) = false := by
      cases hm : inp.memFlag with
      | none => rfl
      | some m =>
          rw [hm] at h2
          simp_all [Option.isNone_iff_eq_none, Option.isSome_iff_exists]
    obtain ⟨f, hf⟩ : ∃ f, inp.args = [f] := by
      cases hargs : inp.args with
      | nil => rw [hargs] at h3; simp at h3
      | cons a l =>
          cases l with
          | nil => exact ⟨a, rfl⟩
          | cons b l2 => rw [hargs] at h3; simp at h3
    rw [hf] at h4
    simp only [List.headD] at h4
    refine ⟨?_, ?_, ?_, ?_⟩
    · intro e he
      simp [Cli.runDriver, h1, hmem, hf, h4, h5, hr, he]
    · intro hl ha hd
      simp [Cli.runDriver, h1, hmem, hf, h4, h5, hr, hl, ha, hd]
    · intro hl ha n hn
      simp [Cli.runDriver, h1, hmem, hf, h4, h5, hr, hl, ha, hn]
    · intro hl ha e he
      cases e <;>
        simp [Cli.runDriver, Cli.exitStatus, h1, hmem, hf, h4, h5, hr, hl, ha, he]

/-- C9 witness: an invalid `-time` value makes the driver exit with the
usage status 1. -/
theorem cli_exit_codes_witness :
    Cli.runDriver
      { timeFlag := .invalid, memFlag := none, args := ["x.go"], absOK := true,
        readOK := true, loadResult := .ok (), asm := false, disasmOK := true,
        runResult := .ok 0 } = .exits 1 :=
  (cli_exit_codes
    { timeFlag := .invalid, memFlag := none, args := ["x.go"], absOK := true,
      readOK := true, loadResult := .ok (), asm := false, disasmOK := true,
      runResult := .ok 0 }).1 rfl

namespace Render

/-! ### Rendering of template statements (`rendering.render`)

Embeds the cases of the render loop needed by the url/text state machine
and by macro shows: `*ast.Text`, `*ast.URL`, `*ast.Value` and
`*ast.ShowMacro`. Expressions are modelled as already-evaluated string
values (their evaluation cannot fail here), text nodes carry their text
with the parser cut already applied, and an import-qualified macro name is
carried as the already-joined string. Rendering through the environment of
declared macros is not structurally decreasing, so the recursion carries a
fuel counter; `fuelExhausted` is the modelling device for exhausted fuel.
-/

/-- The rendering context of a tree or macro (`ast.Context`). -/
inductive RContext where
  | text
  | html
  | css
  | javaScript
deriving DecidableEq, Repr

/-- The URL rendering state (`urlState`): whether we are still in the path
portion, whether we entered the query portion, whether the attribute is
`srcset`, and whether an `&amp;` separator is owed. -/
structure UrlState where
  path : Bool
  query : Bool
  isSet : Bool
  addAmp : Bool
deriving DecidableEq, Repr

/-- The nodes of the embedded render loop. -/
inductive RNode where
  | text (s : String)
  | url (attr : String) (value : List RNode)
  | value (v : String)
  | macroCall (name : String) (context : RContext) (args : List String)

/-- A declared macro (`*ast.Macro` as stored in the scope): parameter
names, variadic flag, declared context and body. -/
structure MacroDecl where
  params : List String
  isVariadic : Bool
  context : RContext
  body : List RNode

/-- A value stored in a scope: a macro (with the path of its declaring
file), a plain value, or the slice bound to a variadic parameter. -/
inductive SVal where
  | macroVal (path : String) (m : MacroDecl)
  | plain (v : String)
  | plainList (vs : List String)

/-- A scope of variables (a Go map, as an association list with unique
keys). -/
def Scope := List (String × SVal)

/-- Lookup in one scope. -/
def assocLookup {α : Type} : List (String × α) → String → Option α
  | [], _ => none
  | (k, v) :: rest, n => if k == n then some v else assocLookup rest n

/-- `rendering.variable`: scans the scopes from the innermost outwards. -/
def lookupVarsRev : List Scope → String → Option SVal
  | [], _ => none
  | sc :: rest, n =>
      match assocLookup sc n with
      | some v => some v
      | none => lookupVarsRev rest n

/-- `rendering.variable` on the scope stack in source order. -/
def lookupVars (vars : List Scope) (n : String) : Option SVal :=
  lookupVarsRev vars.reverse n

/-- The rendering errors of the embedded cases. -/
inductive RErr where
  | macroDifferentContext (name : String) (declared : RContext)
  | cannotShowNonMacro (name : String)
  | macroNotDeclared (name : String)
  | notEnoughArguments (name : String)
  | tooManyArguments (name : String)
  | fuelExhausted
deriving DecidableEq, Repr

/-- The parts of the `rendering` value the embedded cases read: the map
from file path to its macro scope, the current path, and the host error
handler. -/
structure Rend where
  scope : List (String × Scope)
  path : String
  handleError : RErr → Bool

/-- `bytes.ContainsAny(text, "?#")`. -/
def containsAnyQH (cs : List Char) : Bool := cs.any fun c => c == '?' || c == '#'

/-- The `*ast.Text` write inside a URL attribute: while not yet in the
query portion, a text containing `?` or `#` switches to the query portion
(an initial `?` written outside the path consumes `addAmp` as an `&amp;`
and is dropped), and in a `srcset` attribute a text containing a comma
switches back to the path portion. Returns the emitted string and the
updated state. -/
def writeText (us : UrlState) (text : String) : String × UrlState :=
  if us.query then (text, us)
  else
    let cs := text.toList
    let hasQH := containsAnyQH cs
    let trim := hasQH && cs.headD ' ' == '?' && !us.path
    let amp := trim && us.addAmp
    let cs2 := if trim then cs.tail else cs
    let us1 := if hasQH then { us with path := false, query := true } else us
    let us2 := if us1.isSet && cs2.contains ',' then { us1 with path := true, query := false }
               else us1
    ((if amp then "&amp;" else "") ++ String.mk cs2, us2)

/-- HTML-escapes the ampersands of a value written in a query string. -/
def escapeAmp (v : String) : String :=
  String.mk (v.toList.flatMap fun c => if c == '&' then "&amp;".toList else [c])

/-- Modelled from the spec: the URL-attribute interpolation write
(`renderValue` is not among the sources). In the query portion a shown
value is written with its ampersands HTML-escaped, preceded by `&amp;`
when `addAmp` is set, and afterwards a separator is owed (`addAmp`
becomes true); in the path portion the value is written as is and the
state is not changed. -/
def writeValueURL (us : UrlState) (v : String) : String × UrlState :=
  if us.query then
    ((if us.addAmp then "&amp;" else "") ++ escapeAmp v, { us with addAmp := true })
  else (v, us)

/-- The slots bound by a macro show (`arguments` in the source): each
parameter is bound to its argument; a variadic last parameter collects the
remaining arguments as a slice. -/
def buildArguments (params : List String) (isVariadic : Bool) (args : List String) :
    Scope :=
  let want := params.length
  let last := want - 1
  if isVariadic then
    (params.take last).zip ((args.take last).map SVal.plain) ++
      [(params.getLastD "", SVal.plainList (args.drop last))]
  else params.zip (args.map SVal.plain)

/-- The render loop over the embedded nodes, returning the rendered output
and the final URL state. Errors flow as in the source: an error built by a
node is first offered to `handleError`, which either swallows it (the node
renders nothing and the loop continues) or aborts the render; errors from
a macro body abort the render directly. -/
def render : Nat → Rend → List Scope → List RNode → Option UrlState →
    Except RErr (String × Option UrlState)
  | 0, _, _, _, _ => .error .fuelExhausted
  | _ + 1, _, _, [], us => .ok ("", us)
  | fuel + 1, r, vars, node :: rest, us =>
      match node with
      | .text s =>
          let (out, us2) :=
            if s.isEmpty then ("", us)
            else
              match us with
              | none => (s, us)
              | some u =>
                  let (o, u2) := writeText u s
                  (o, some u2)
          (render fuel r vars rest us2).map fun p => (out ++ p.1, p.2)
      | .value v =>
          let (out, us2) :=
            match us with
            | none => (v, us)
            | some u =>
                let (o, u2) := writeValueURL u v
                (o, some u2)
          (render fuel r vars rest us2).map fun p => (out ++ p.1, p.2)
      | .url attr value =>
          if value.isEmpty then render fuel r vars rest us
          else
            match render fuel r vars value
                (some { path := true, query := false, isSet := attr == "srcset",
                        addAmp := false }) with
            | .error e => .error e
            | .ok p =>
                (render fuel r vars rest us).map fun q => (p.1 ++ q.1, q.2)
      | .macroCall name ctx args =>
          match lookupVars vars name with
          | some (SVal.macroVal mpath m) =>
              if ctx ≠ m.context then
                let e := RErr.macroDifferentContext name m.context
                if r.handleError e then render fuel r vars rest us else .error e
              else
                let haveSize := args.length
                let wantSize := m.params.length
                if (!m.isVariadic && haveSize ≠ wantSize) ||
                    (m.isVariadic && haveSize + 1 < wantSize) then
                  let e := if haveSize < wantSize then RErr.notEnoughArguments name
                           else RErr.tooManyArguments name
                  if r.handleError e then render fuel r vars rest us else .error e
                else
                  let arguments := buildArguments m.params m.isVariadic args
                  let vars2 := [vars.headD [], vars.getD 1 [],
                                (assocLookup r.scope mpath).getD [], arguments]
                  match render fuel { r with path := mpath } vars2 m.body none with
                  | .error e => .error e
                  | .ok p =>
                      (render fuel r vars rest us).map fun q => (p.1 ++ q.1, q.2)
          | some _ =>
              let e := RErr.cannotShowNonMacro name
              if r.handleError e then render fuel r vars rest us else .error e
          | none =>
              let e := RErr.macroNotDeclared name
              if r.handleError e then render fuel r vars rest us else .error e

end Render

/-- C6 counterexample: a show of a macro whose declared context equals the
rendering context but whose argument count is short renders nothing and
reports "not enough arguments", so the claim's unconditional "the macro
body is rendered" fails; the context check itself is not at fault. -/
theorem showMacro_equal_context_not_rendered :
    Render.render 2 ⟨[], "p", fun _ => false⟩
        [[("M", Render.SVal.macroVal "f"
            ⟨["x"], false, Render.RContext.text, [Render.RNode.text "hi"]⟩)]]
        [Render.RNode.macroCall "M" Render.RContext.text []] none
      = Except.error (Render.RErr.notEnoughArguments "M") := rfl

/-- C6 (amended): for a show of a declared macro, if the macro's declared
context differs from the rendering context the renderer builds exactly the
error "macro ... is defined in a different context" and renders nothing
for that show (the error is either swallowed — rendering continues with
the following nodes — or aborts the render); if the declared context
equals the rendering context that error is not built and, when the
argument count matches the macro's parameters, the macro body is rendered
in a fresh scope stack. -/
theorem showMacro_context_spec (fuel : Nat) (r : Render.Rend)
    (vars : List Render.Scope) (name : String) (ctx : Render.RContext)
    (args : List String) (rest : List Render.RNode)
    (us : Option Render.UrlState) (mpath : String) (m : Render.MacroDecl)
    (hlook : Render.lookupVars vars name = some (.macroVal mpath m)) :
    (m.context ≠ ctx →
      Render.render (fuel + 1) r vars (.macroCall name ctx args :: rest) us =
        if r.handleError (.macroDifferentContext name m.context)
        then Render.render fuel r vars rest us
        else .error (.macroDifferentContext name m.context)) ∧
    (m.context = ctx → m.isVariadic = false → args.length = m.params.length →
      Render.render (fuel + 1) r vars (.macroCall name ctx args :: rest) us =
        match Render.render fuel { r with path := mpath }
            [vars.headD [], vars.getD 1 [],
             (Render.assocLookup r.scope mpath).getD [],
             Render.buildArguments m.params false args] m.body none with
        | .error e => .error e
        | .ok p => (Render.render fuel r vars rest us).map fun q => (p.1 ++ q.1, q.2)) := by
  constructor
  · intro hne
    have hne' : ctx ≠ m.context := fun h => hne h.symm
    simp only [Render.render, hlook, if_pos hne']
  · intro heq hnv hlen
    have heq' : ¬ ctx ≠ m.context := fun h => h heq.symm
    simp only [Render.render, hlook, if_neg heq', hnv, hlen]
    simp

/-- C6 witness: a macro declared in text context shown from HTML context
reports the different-context error. -/
theorem showMacro_context_spec_witness :
    Render.render 1 ⟨[], "p", fun _ => false⟩
        [[("M", Render.SVal.macroVal "f"
            ⟨[], false, Render.RContext.text, []⟩)]]
        [Render.RNode.macroCall "M" Render.RContext.html []] none
      = Except.error (Render.RErr.macroDifferentContext "M" Render.RContext.text) := by
  have h := (showMacro_context_spec 0 ⟨[], "p", fun _ => false⟩
      [[("M", Render.SVal.macroVal "f"
          ⟨[], false, Render.RContext.text, []⟩)]]
      "M" Render.RContext.html [] [] none "f"
      ⟨[], false, Render.RContext.text, []⟩ rfl).1 (by decide)
  simpa using h

/-- C8 counterexample: a literal comma written in a `srcset` attribute
while the writer is already in query state (entered during an *earlier*
write) does not switch it back to path state: the guarded block of the
text write only runs when the writer is not yet in query state. -/
theorem urlstate_comma_in_query_counterexample :
    (Render.writeText
        { path := false, query := true, isSet := true, addAmp := false } ",").2
      = { path := false, query := true, isSet := true, addAmp := false } ∧
    (Render.writeText
        { path := false, query := true, isSet := true, addAmp := false } ",").2.path
      = false := ⟨rfl, rfl⟩

/-- C8 (amended): while the URL writer is not yet in query state at the
start of the write, literal text containing `?` or `#` switches it to
query state and clears path state (unless a comma of the same `srcset`
text switches it straight back), and in a `srcset` attribute literal text
containing a comma leaves the writer in path state; consequently the
srcset scenario `{{a}}, {{b}}` with a = "/x?u=1", b = "/y" renders as
"/x?u=1, /y" with no `&amp;` inserted before b, while the href scenario
`/p?{{q}}` with q = "a&b" renders as "/p?a&amp;b". -/
theorem url_text_state_spec (us : Render.UrlState) (text : String)
    (hq : us.query = false) :
    (Render.containsAnyQH text.toList = true →
      (us.isSet && text.toList.contains ',') = false →
      (Render.writeText us text).2 = { us with path := false, query := true }) ∧
    (us.isSet = true → text.toList.contains ',' = true →
      (Render.writeText us text).2 = { us with path := true, query := false }) ∧
    Render.render 9 ⟨[], "p", fun _ => false⟩ []
        [Render.RNode.url "srcset"
          [Render.RNode.value "/x?u=1", Render.RNode.text ", ",
           Render.RNode.value "/y"]] none
      = Except.ok ("/x?u=1, /y", none) ∧
    Render.render 9 ⟨[], "p", fun _ => false⟩ []
        [Render.RNode.url "href"
          [Render.RNode.text "/p?", Render.RNode.value "a&b"]] none
      = Except.ok ("/p?a&amp;b", none) := by
  refine ⟨?_, ?_, rfl, rfl⟩
  · intro hqh hnc
    have hmem : us.isSet = false ∨ (',' ∈ text.data → False) := by
      rcases Bool.and_eq_false_iff.mp hnc with hset | hcm
      · exact .inl hset
      · exact .inr (by simpa [String.toList] using hcm)
    simp only [String.toList] at hqh
    rcases hmem with hset | hm2
    · simp [Render.writeText, String.toList, hq, hqh, hset]
    · have hm3 : ',' ∈ text.data.tail → False := fun hx => hm2 (List.mem_of_mem_tail hx)
      simp [Render.writeText, String.toList, hq, hqh, hm2, hm3]
      intro hx
      split_ifs <;> intro hy
      · exact hm3 hy
      · exact hm2 hy
  · intro hset hcm
    have hmem : ',' ∈ text.data := by simpa [String.toList] using hcm
    have hq2 : text.data.head?.getD ' ' = '?' → ',' ∈ text.data.tail := by
      intro hhd
      rcases hh : text.data with _ | ⟨c, l⟩
      · rw [hh] at hmem; cases hmem
      · rw [hh] at hmem hhd
        simp only [List.head?_cons, Option.getD_some] at hhd
        rcases List.mem_cons.mp hmem with h1 | h2
        · rw [hhd] at h1
          exact absurd h1 (by decide)
        · simpa using h2
    by_cases h1 : Render.containsAnyQH text.data = true
    · by_cases h2 : text.data.head?.getD ' ' = '?'
      · by_cases h3 : us.path = true
        · simp [Render.writeText, String.toList, hq, h1, h2, h3, hset, hmem]
        · simp [Render.writeText, String.toList, hq, h1, h2, h3, hset, hmem, hq2 h2]
      · simp [Render.writeText, String.toList, hq, h1, h2, hset, hmem]
    · simp [Render.writeText, String.toList, hq, h1, hset, hmem]

/-- C8 witness: in a `srcset` attribute still in path state, the literal
text "a,b" leaves the writer in path state. -/
theorem url_text_state_spec_witness :
    (Render.writeText
        { path := false, query := false, isSet := true, addAmp := false } "a,b").2
      = { path := true, query := false, isSet := true, addAmp := false } :=
  ((url_text_state_spec
      { path := false, query := false, isSet := true, addAmp := false } "a,b"
      rfl).2.1) rfl (by decide)

namespace Conv

/-! ### Format-type conversions (type checker)

The checker code implementing conversions is not among the sources; only
its test file `checker_template_test.go` is. The conversion relation is
therefore modelled from the spec and validated against every
format-conversion case of that test file.
-/

/-- The five format types. -/
inductive FormatType where
  | html
  | css
  | js
  | json
  | markdown
deriving DecidableEq, Repr

/-- A type as far as format conversions are concerned: `string`, one of
the format types, or any other type. -/
inductive ConvType where
  | stringT
  | format (f : FormatType)
  | other
deriving DecidableEq, Repr

/-- The operand of an explicit conversion: an untyped string constant, or
a typed operand of the given type (a typed constant follows the same
rules). -/
inductive Operand where
  | untypedStringConst
  | typed (t : ConvType)
deriving DecidableEq, Repr

/-- Modelled from the spec: whether the explicit conversion of `src` to
`target` is accepted, for the conversions involving format types. An
untyped string constant converts to `string` and to any format type; a
typed `string` value does not convert to a format type (the compile error
"cannot convert s (type string) to type ..."); a format-type value
converts to `string` and to its own format type; two distinct format
types do not convert into each other. -/
def convertOK (src : Operand) (target : ConvType) : Bool :=
  match src, target with
  | .untypedStringConst, .stringT => true
  | .untypedStringConst, .format _ => true
  | .typed .stringT, .stringT => true
  | .typed .stringT, .format _ => false
  | .typed (.format _), .stringT => true
  | .typed (.format f), .format g => f == g
  | _, _ => false

/-- The format-conversion cases of `checkerTemplateStmts` in
`checker_template_test.go`: operand, target, and whether the test expects
the conversion to check. `string(s)` for every format-typed variable,
`html(s)`..`markdown(s)` for an untyped string constant, the
"cannot convert s (type string) to type ..." error cases for a typed
string, and the identity conversions for format-typed constants and
variables. -/
def testCases : List (Operand × ConvType × Bool) :=
  [(.typed (.format .html), .stringT, true),
   (.typed (.format .css), .stringT, true),
   (.typed (.format .js), .stringT, true),
   (.typed (.format .json), .stringT, true),
   (.typed (.format .markdown), .stringT, true),
   (.untypedStringConst, .format .html, true),
   (.untypedStringConst, .format .css, true),
   (.untypedStringConst, .format .js, true),
   (.untypedStringConst, .format .json, true),
   (.untypedStringConst, .format .markdown, true),
   (.typed .stringT, .format .html, false),
   (.typed .stringT, .format .css, false),
   (.typed .stringT, .format .js, false),
   (.typed .stringT, .format .json, false),
   (.typed .stringT, .format .markdown, false),
   (.typed (.format .html), .format .html, true),
   (.typed (.format .css), .format .css, true),
   (.typed (.format .js), .format .js, true),
   (.typed (.format .json), .format .json, true),
   (.typed (.format .markdown), .format .markdown, true)]

end Conv

/-- C2: an untyped string constant converts to any format type; a typed
`string` value does not convert to a format type; a format-type value
converts to `string` (explicit conversion) and to its own format type;
two distinct format types do not convert into each other; and the
modelled relation reproduces every format-conversion case of the
checker's template test file. -/
theorem format_conversion_spec (f g : Conv.FormatType) (hne : f ≠ g) :
    Conv.convertOK .untypedStringConst (.format f) = true ∧
    Conv.convertOK (.typed .stringT) (.format f) = false ∧
    Conv.convertOK (.typed (.format f)) .stringT = true ∧
    Conv.convertOK (.typed (.format f)) (.format f) = true ∧
    Conv.convertOK (.typed (.format f)) (.format g) = false ∧
    (Conv.testCases.all fun c => Conv.convertOK c.1 c.2.1 == c.2.2) = true := by
  refine ⟨rfl, rfl, rfl, ?_, ?_, by decide⟩
  · simp [Conv.convertOK]
  · simp [Conv.convertOK]
    exact hne

/-- C2 witness: html does not convert to css, and the other rules at
html/css. -/
theorem format_conversion_spec_witness :
    Conv.convertOK (.typed (.format .html)) (.format .css) = false :=
  (format_conversion_spec Conv.FormatType.html Conv.FormatType.css
    (by decide)).2.2.2.2.1
